import Mathlib

/-!
Shallow embedding of the clipboard reconciliation / OCR text-extraction core of
the septsatv2 repository (src/api/clipboard.js and src/unnamed/part_002, which is
the AI-processing variant of the same module and the authority for the text
normalizer and question export).

Conventions of the embedding:
* JavaScript strings are Lean `String`s; the text-processing pipeline works on
  `List Char` (`String.data`).  `toLowerCase` is modelled by `Char.toLower`
  (ASCII case folding; every input exercised by the claims is ASCII).
* Timestamps (`Date.now()`, `toISOString()`, blob `uploadedAt`) are modelled as
  `Nat` milliseconds; ISO-string comparison in the source coincides with the
  numeric order of the underlying instants.
* Confidence scores (`0.3 + 0.4 + 0.3` in the source) are modelled in tenths as
  `Nat` (3, 4, 3; the `> 0.5` threshold becomes `> 5`), which is exact for every
  value the pipeline can produce.
* Nondeterministic inputs of the source (`generateId()`, the current time, the
  blob gateway and the OCR-payload fetches) are passed as explicit parameters.
-/

namespace Septsat

/-! ## Character and list-of-characters helpers -/

/-- Whitespace class used for the `\s` regex class (ASCII part). -/
def isWsC (c : Char) : Bool := c = ' ' || c = '\t' || c = '\n' || c = '\r'

/-- Decimal digit, the `\d` regex class. -/
def isDigitC (c : Char) : Bool := '0' ≤ c && c ≤ '9'

/-- Character class `[A-Z0-9]` of the long-code stripping regex. -/
def isUpperOrDigit (c : Char) : Bool := ('A' ≤ c && c ≤ 'Z') || isDigitC c

/-- Case-sensitive "the first list is a prefix of the second". -/
def isPrefixL : List Char → List Char → Bool
  | [], _ => true
  | _ :: _, [] => false
  | p :: ps, c :: cs => p = c && isPrefixL ps cs

/-- Case-insensitive prefix test (models a regex literal under the `i` flag). -/
def isPrefixCI : List Char → List Char → Bool
  | [], _ => true
  | _ :: _, [] => false
  | p :: ps, c :: cs => p.toLower = c.toLower && isPrefixCI ps cs

/-- Some position of the text (including the end) satisfies `p` on its suffix. -/
def existsPos (p : List Char → Bool) : List Char → Bool
  | [] => p []
  | c :: cs => p (c :: cs) || existsPos p cs

/-- Case-sensitive substring containment, `String.prototype.includes`. -/
def containsSub (pat : List Char) (l : List Char) : Bool :=
  existsPos (isPrefixL pat) l

/-- Case-insensitive substring containment. -/
def containsCI (pat : List Char) (l : List Char) : Bool :=
  existsPos (isPrefixCI pat) l

/-- Index of the first (case-sensitive) occurrence of `pat`, `String.indexOf`. -/
def indexOfSub (pat : List Char) : List Char → Option Nat
  | [] => if isPrefixL pat [] then some 0 else none
  | c :: cs =>
    if isPrefixL pat (c :: cs) then some 0
    else (indexOfSub pat cs).map (· + 1)

/-- Value of a digit string, `parseInt` on the capture of `(\d+)`. -/
def digitsToNat (ds : List Char) : Nat :=
  ds.foldl (fun a c => a * 10 + (c.toNat - 48)) 0

/-- Both-ends whitespace trim, `String.prototype.trim`. -/
def trimL (l : List Char) : List Char :=
  ((l.dropWhile isWsC).reverse.dropWhile isWsC).reverse

/-- Whitespace-run collapsing, `.replace(/\s+/g, ' ')`. -/
def collapseWs : List Char → List Char
  | [] => []
  | [c] => [if isWsC c then ' ' else c]
  | c1 :: c2 :: rest =>
    if isWsC c1 && isWsC c2 then collapseWs (c2 :: rest)
    else (if isWsC c1 then ' ' else c1) :: collapseWs (c2 :: rest)

/-- Fuelled worker for `scanRemove`; every step consumes at least one
character, so fuel equal to the list length is always enough. -/
def scanRemoveF (tryM : List Char → Option Nat) : Nat → List Char → List Char
  | _, [] => []
  | 0, l => l
  | fuel + 1, c :: cs =>
    match tryM (c :: cs) with
    | some n => scanRemoveF tryM fuel (cs.drop (n - 1))
    | none => c :: scanRemoveF tryM fuel cs

/-- Global removal of every leftmost, non-overlapping match, where `tryM`
returns the length of the match starting at the given suffix (`≥ 1` for every
matcher used below), mirroring `.replace(/pat/g, '')`. -/
def scanRemove (tryM : List Char → Option Nat) (l : List Char) : List Char :=
  scanRemoveF tryM l.length l

/-! ## Noise matchers of `processQuestionText`

Each matcher decides whether the corresponding regex of the source matches at
the start of the given suffix and, if so, how many characters the (leftmost,
greedy) match consumes.  None of the patterns can match the empty string. -/

/-- Matcher for `/Chrome File Edit View History Bookmarks.*?(\n|$)/gi`:
the literal (case-insensitively), then lazily up to and including the next
newline, or to the end of the string.  `.` does not cross `\r` either, so a
carriage return before the newline blocks the match. -/
def matchChrome (l : List Char) : Option Nat :=
  let lit := "Chrome File Edit View History Bookmarks".data
  if isPrefixCI lit l then
    let rest := l.drop lit.length
    let body := rest.takeWhile (fun c => c ≠ '\n' && c ≠ '\r')
    match rest.drop body.length with
    | [] => some (lit.length + body.length)
    | '\n' :: _ => some (lit.length + body.length + 1)
    | _ => none
  else none

/-- Matcher for `/https?:\/\/[^\s]+/g`. -/
def matchUrl (l : List Char) : Option Nat :=
  let att (p : String) : Option Nat :=
    if isPrefixL p.data l then
      let tok := (l.drop p.data.length).takeWhile (fun c => !(isWsC c))
      if tok.length ≥ 1 then some (p.data.length + tok.length) else none
    else none
  match att "https://" with
  | some n => some n
  | none => att "http://"

/-- Matcher for `/\d+\s*x\s*\d+/g` (dimension-like tokens). -/
def matchDims (l : List Char) : Option Nat :=
  let d1 := l.takeWhile isDigitC
  if d1.length = 0 then none
  else
    let r1 := l.drop d1.length
    let w1 := r1.takeWhile isWsC
    match r1.drop w1.length with
    | 'x' :: r3 =>
      let w2 := r3.takeWhile isWsC
      let d2 := (r3.drop w2.length).takeWhile isDigitC
      if d2.length = 0 then none
      else some (d1.length + w1.length + 1 + w2.length + d2.length)
    | _ => none

/-- Matcher for `/[©®™]/g`. -/
def matchCopySym : List Char → Option Nat
  | c :: _ => if c = '©' || c = '®' || c = '™' then some 1 else none
  | [] => none

/-- Matcher for `/\s*Incognito\s*/g` (case-sensitive). -/
def matchIncog (l : List Char) : Option Nat :=
  let w1 := l.takeWhile isWsC
  let r1 := l.drop w1.length
  if isPrefixL "Incognito".data r1 then
    let w2 := (r1.drop 9).takeWhile isWsC
    some (w1.length + 9 + w2.length)
  else none

/-- Matcher for `/Help\s*\d*\s*Choice\s*Questions/gi`. -/
def matchHelpChoice (l : List Char) : Option Nat :=
  if isPrefixCI "Help".data l then
    let r1 := l.drop 4
    let w1 := r1.takeWhile isWsC
    let ds := (r1.drop w1.length).takeWhile isDigitC
    let r2 := (r1.drop w1.length).drop ds.length
    let w2 := r2.takeWhile isWsC
    let r3 := r2.drop w2.length
    if isPrefixCI "Choice".data r3 then
      let r4 := r3.drop 6
      let w3 := r4.takeWhile isWsC
      if isPrefixCI "Questions".data (r4.drop w3.length) then
        some (4 + w1.length + ds.length + w2.length + 6 + w3.length + 9)
      else none
    else none
  else none

/-- Matcher for `/blackboard\.com[^\s]*/gi`. -/
def matchBlackboard (l : List Char) : Option Nat :=
  if isPrefixCI "blackboard.com".data l then
    let tok := (l.drop 14).takeWhile (fun c => !(isWsC c))
    some (14 + tok.length)
  else none

/-- Matcher for `/[A-Z0-9]{8,}/g` (long alphanumeric codes). -/
def matchLongCode (l : List Char) : Option Nat :=
  let run := l.takeWhile isUpperOrDigit
  if run.length ≥ 8 then some run.length else none

/-- The whole noise-stripping prelude of `processQuestionText`: the eight
`replace(..., '')` calls in source order, then whitespace collapsing and a
final trim. -/
def stripNoise (l : List Char) : List Char :=
  trimL (collapseWs
    (scanRemove matchLongCode
      (scanRemove matchBlackboard
        (scanRemove matchHelpChoice
          (scanRemove matchIncog
            (scanRemove matchCopySym
              (scanRemove matchDims
                (scanRemove matchUrl
                  (scanRemove matchChrome l)))))))))

/-! ## Question-number extraction -/

/-- Match of `/Question\s*(\d+)/i` at the start of the suffix, returning the
total match length and the parsed capture. -/
def qNumAt (l : List Char) : Option (Nat × Nat) :=
  if isPrefixCI "Question".data l then
    let r1 := l.drop 8
    let w := r1.takeWhile isWsC
    let ds := (r1.drop w.length).takeWhile isDigitC
    if ds.length ≥ 1 then some (8 + w.length + ds.length, digitsToNat ds)
    else none
  else none

/-- Leftmost match of `/Question\s*(\d+)/i`: index, match length, number. -/
def findQNum : List Char → Option (Nat × Nat × Nat)
  | [] => none
  | c :: cs =>
    match qNumAt (c :: cs) with
    | some (len, n) => some (0, len, n)
    | none => (findQNum cs).map (fun t => (t.1 + 1, t.2.1, t.2.2))

/-! ## Answer-choice extraction -/

/-- Character class `[A-E]` under the `i` flag. -/
def isChoiceLetterCI (c : Char) : Bool :=
  ('A' ≤ c && c ≤ 'E') || ('a' ≤ c && c ≤ 'e')

/-- Does `\([A-E]\)` (with `i`) match at the start of the suffix? -/
def choiceStartHere : List Char → Bool
  | '(' :: l :: ')' :: _ => isChoiceLetterCI l
  | _ => false

/-- One pass of `/\([A-E]\)\s*([^(]*?)(?=\([A-E]\)|$)/gi` over the text:
returns the list of full matches (`match[0]`) in order, together with the text
with all matches removed (which is what `.replace(choicePattern, '')` yields).
A parenthesised letter whose body runs into a `(` that does not itself start a
choice is not a match (the lookahead fails and `[^(]` cannot cross the `(`). -/
def choiceScanF : Nat → List Char → List (List Char) × List Char
  | _, [] => ([], [])
  | 0, l => ([], l)
  | fuel + 1, '(' :: cs =>
    match cs with
    | l :: ')' :: rest =>
      if isChoiceLetterCI l then
        let body := rest.takeWhile (· ≠ '(')
        let after := rest.drop body.length
        if after.isEmpty || choiceStartHere after then
          let t := choiceScanF fuel after
          (('(' :: l :: ')' :: body) :: t.1, t.2)
        else
          let t := choiceScanF fuel cs
          (t.1, '(' :: t.2)
      else
        let t := choiceScanF fuel cs
        (t.1, '(' :: t.2)
    | _ =>
      let t := choiceScanF fuel cs
      (t.1, '(' :: t.2)
  | fuel + 1, c :: cs =>
    let t := choiceScanF fuel cs
    (t.1, c :: t.2)

/-- Entry point: fuel equal to the list length always suffices since every
step of the worker consumes at least one character. -/
def choiceScan (l : List Char) : List (List Char) × List Char :=
  choiceScanF l.length l

/-- First `(X)` with an uppercase `X ∈ [A-E]` in the trimmed choice, the
capture of the inner `choice.match(/\(([A-E])\)/)` (no `i` flag).  `none`
models the `TypeError` the source throws when only a lowercase letter matched
the outer scan. -/
def findUpperChoice : List Char → Option Char
  | [] => none
  | '(' :: cs =>
    match cs with
    | x :: ')' :: _ => if 'A' ≤ x && x ≤ 'E' then some x else findUpperChoice cs
    | _ => findUpperChoice cs
  | _ :: cs => findUpperChoice cs

/-- Removal of the first `/\([A-E]\)\s*/` (uppercase only, no `i` flag), the
`choice.replace(/\([A-E]\)\s*/, '')` step. -/
def removeFirstChoiceMark : List Char → List Char
  | [] => []
  | '(' :: cs =>
    match cs with
    | x :: ')' :: rest =>
      if 'A' ≤ x && x ≤ 'E' then rest.dropWhile isWsC
      else '(' :: removeFirstChoiceMark cs
    | _ => '(' :: removeFirstChoiceMark cs
  | c :: cs => c :: removeFirstChoiceMark cs

/-- An `{letter, text, fullChoice}` record of the source. -/
structure AnswerChoice where
  letter : Char
  text : String
  fullChoice : String
deriving DecidableEq

/-- Builds the pushed `answerChoices` from the full matches: each match is
trimmed, its uppercase letter extracted (`none` = the source throws), its text
computed, and it is pushed only when the text is nonempty. -/
def buildChoices : List (List Char) → Option (List AnswerChoice)
  | [] => some []
  | m :: ms =>
    let ch := trimL m
    match findUpperChoice ch with
    | none => none
    | some letter =>
      let text := trimL (removeFirstChoiceMark ch)
      match buildChoices ms with
      | none => none
      | some rest =>
        some (if text.isEmpty then rest
              else ⟨letter, String.mk text, String.mk ch⟩ :: rest)

/-! ## Trailing-fragment heuristics -/

/-- The `questionText.replace(/describes:.*$/i, 'describes:')` step: truncate
at the first case-insensitive `describes:` and keep the literal (lowercase)
replacement. -/
def truncDescribes : List Char → List Char
  | [] => []
  | c :: cs =>
    if isPrefixCI "describes:".data (c :: cs) then "describes:".data
    else c :: truncDescribes cs

/-- The `replace(/^.*?The examination/, 'The examination')` step: drop
everything before the first (case-sensitive) `The examination`, if any. -/
def startFromExamination (l : List Char) : List Char :=
  match indexOfSub "The examination".data l with
  | some i => l.drop i
  | none => l

/-- Does `/anthropology\s*sociology/i` match at the start of the suffix? -/
def anthroAt (l : List Char) : Bool :=
  if isPrefixCI "anthropology".data l then
    isPrefixCI "sociology".data ((l.drop 12).dropWhile isWsC)
  else false

/-- The `replace(/anthropology\s*sociology.*$/i, '')` step: truncate at the
first match. -/
def removeTrailingAnthro : List Char → List Char
  | [] => []
  | c :: cs => if anthroAt (c :: cs) then [] else c :: removeTrailingAnthro cs

/-! ## The question record and the normalizer -/

/-- The structured result of the normalizer.  `confidence` is in tenths.
`hadError` marks the record produced by the `catch` branch of
`cleanOcrTextWithAI` (the source also stores the error message there). -/
structure QuestionRecord where
  isQuestion : Bool
  cleanedText : String
  questionNumber : Option Nat
  questionText : Option String
  answerChoices : List AnswerChoice
  correctAnswer : Option String
  confidence : Nat
  originalLength : Option Nat
  cleanedLength : Option Nat
  hadError : Bool
deriving DecidableEq

/-- The `processQuestionText` pipeline of src/unnamed/part_002 (lines 64-138).
`none` models a thrown exception (lowercase choice letter). -/
def processQuestionText (rawText : String) : Option QuestionRecord :=
  let cleanText := stripNoise rawText.data
  let qn := findQNum cleanText
  let questionNumber : Option Nat := qn.map (fun t => t.2.2)
  let qt0 : List Char :=
    match qn with
    | some (i, len, _) => trimL (cleanText.drop (i + len))
    | none => cleanText
  let qt1 := truncDescribes qt0
  match buildChoices (choiceScan cleanText).1 with
  | none => none
  | some answerChoices =>
    let qt2 := if answerChoices.length > 0 then trimL (choiceScan qt1).2 else qt1
    let qt3 := trimL (removeTrailingAnthro (startFromExamination qt2))
    let conf :=
      (if questionNumber.getD 0 ≠ 0 then 3 else 0)
      + (if qt3.length > 10 then 4 else 0)
      + (if answerChoices.length ≥ 2 then 3 else 0)
    some { isQuestion := conf > 5
           cleanedText := String.mk qt3
           questionNumber := questionNumber
           questionText := some (String.mk qt3)
           answerChoices := answerChoices
           correctAnswer := none
           confidence := conf
           originalLength := some rawText.length
           cleanedLength := some qt3.length
           hadError := false }

/-- Does `multiple\s*choice` (with `i`) match at the start of the suffix? -/
def multChoiceAt (l : List Char) : Bool :=
  isPrefixCI "multiple".data l &&
  isPrefixCI "choice".data ((l.drop 8).dropWhile isWsC)

/-- The quiz-indicator test of `cleanOcrTextWithAI`, i.e.
`/question\s*\d+|multiple\s*choice|answer|choice|select|which|what|how|why|when|where/i.test(rawText)`. -/
def hasQuestionIndicators (raw : String) : Bool :=
  let l := raw.data
  existsPos (fun s => (qNumAt s).isSome) l
  || existsPos multChoiceAt l
  || containsCI "answer".data l
  || containsCI "choice".data l
  || containsCI "select".data l
  || containsCI "which".data l
  || containsCI "what".data l
  || containsCI "how".data l
  || containsCI "why".data l
  || containsCI "when".data l
  || containsCI "where".data l

/-- The record returned when no quiz indicator is found, and (with
`hadError := true`) by the `catch` branch. -/
def noParseRecord (raw : String) (err : Bool) : QuestionRecord :=
  { isQuestion := false
    cleanedText := raw
    questionNumber := none
    questionText := none
    answerChoices := []
    correctAnswer := none
    confidence := 0
    originalLength := none
    cleanedLength := none
    hadError := err }

/-- The `cleanOcrTextWithAI` entry point of src/unnamed/part_002 (lines 27-61). -/
def cleanOcrTextWithAI (rawText : String) : QuestionRecord :=
  if !(hasQuestionIndicators rawText) then noParseRecord rawText false
  else
    match processQuestionText rawText with
    | some r => r
    | none => noParseRecord rawText true

/-! ## Spec-side definitions for the classification claim (C8)

These two definitions follow the words of the spec and of the amended claim
respectively; they are compared with `hasQuestionIndicators`, which is the
definition taken from the source. -/

/-- The ten quiz-indicator tokens named by the spec and by claim C8. -/
def specQuizTokens : List String :=
  ["question", "answer", "choice", "select", "which", "what", "how", "why",
   "when", "where"]

/-- Claim C8's classification rule, following the spec's words: the raw text
contains (case-insensitively) one of the ten tokens. -/
def specQuizIndicator (raw : String) : Bool :=
  specQuizTokens.any (fun t => containsCI t.data raw.data)

/-- The amended classification rule: `question` only counts when followed by
optional whitespace and a digit; `multiple choice` (with optional whitespace)
also counts; the other nine tokens count as plain substrings. -/
def amendedQuizIndicator (raw : String) : Bool :=
  (specQuizTokens.filter (· ≠ "question")).any (fun t => containsCI t.data raw.data)
  || existsPos (fun s => (qNumAt s).isSome) raw.data
  || existsPos multChoiceAt raw.data

/-! ## JavaScript truthiness helpers -/

/-- Truthiness of an optional string: `undefined`/`null` and `''` are falsy. -/
def truthyS : Option String → Bool
  | none => false
  | some s => s ≠ ""

/-- The `a || b` idiom on two optional strings. -/
def jsOrS (a b : Option String) : Option String :=
  if truthyS a then a else b

/-- The `a || 'default'` idiom producing a string. -/
def jsOrStr (a : Option String) (d : String) : String :=
  match a with
  | some s => if s ≠ "" then s else d
  | none => d

/-- The `a || n` idiom on numbers (`0` is falsy). -/
def jsOrNat (a : Option Nat) (d : Nat) : Nat :=
  match a with
  | some n => if n ≠ 0 then n else d
  | none => d

/-- The `a || false` idiom on booleans. -/
def jsOrBool (a : Option Bool) (d : Bool) : Bool :=
  match a with
  | some b => if b then b else d
  | none => d

/-- Prefix test on strings, modelling `String.prototype.startsWith`. -/
def startsWithStr (pre s : String) : Bool := isPrefixL pre.data s.data

/-- ASCII lowercasing of a whole string, modelling `toLowerCase`. -/
def lowerS (s : String) : String := String.mk (s.data.map Char.toLower)

/-- Removal of the first occurrence of `pat`, modelling
`String.prototype.replace(pat, '')` with a plain-string pattern. -/
def replaceFirstSub (pat : List Char) : List Char → List Char
  | [] => []
  | c :: cs =>
    if isPrefixL pat (c :: cs) then (c :: cs).drop pat.length
    else c :: replaceFirstSub pat cs

/-- String wrapper for `replaceFirstSub`. -/
def stripExt (ext s : String) : String := String.mk (replaceFirstSub ext.data s.data)

/-! ## Data model

The in-memory `clipboardIndex` of the source: a JS object mapping userId to a
user record (modelled as an association list preserving JS property-insertion
order) plus the global counters.  All timestamps are `Nat` milliseconds;
`lastUpdated : Option Nat` starts as `null`. -/

/-- A screenshot entry of the index.  `sessionInfo` is an opaque passthrough
(`none` models the empty object `{}`); `size` carries the stored byte count. -/
structure ScreenshotEntry where
  id : String
  filename : String
  timestamp : Nat
  uploadedAt : Nat
  accessType : Option String
  sessionInfo : Option String
  size : Nat
  blobUrl : String
deriving DecidableEq

/-- An OCR entry of the index.  Upload-created entries populate the text and
AI fields; reconciliation-created entries populate the five hydrated preview
fields only when the blob fetch succeeded (`none` models an absent JS field).
`questionNumber := none` covers both an absent field and a stored `null`,
which every consumer distinguishes only by truthiness. -/
structure OcrEntry where
  id : String
  filename : String
  timestamp : Nat
  uploadedAt : Nat
  size : Nat
  blobUrl : String
  screenshotPath : Option String := none
  screenshotFileName : Option String := none
  extractedText : Option String := none
  textConfidence : Option Nat := none
  wordCount : Option Nat := none
  characterCount : Option Nat := none
  hasText : Option Bool := none
  method : Option String := none
  sessionStats : Option String := none
  confidence : Option Nat := none
  aiProcessed : Option QuestionRecord := none
  isQuestion : Option Bool := none
  questionNumber : Option Nat := none
  cleanedText : Option String := none
  answerChoices : Option (List AnswerChoice) := none
  aiConfidence : Option Nat := none
deriving DecidableEq

/-- The `deviceInfo` passthrough, in the three shapes the source builds. -/
inductive DeviceInfo where
  | empty
  | fromScreenshot (hostname platform deviceId : Option String)
      (macAddresses : Option (List String))
  | fromOcr (hostname platform deviceId accessType : String)
deriving DecidableEq

/-- A per-user record of the index. -/
structure UserRecord where
  username : String
  deviceInfo : DeviceInfo
  screenshots : List ScreenshotEntry
  ocrEntries : List OcrEntry
  firstSeen : Nat
  lastActive : Nat
  totalScreenshots : Nat
  totalOcrEntries : Nat
deriving DecidableEq

/-- The in-memory clipboard index. -/
structure ClipboardIndex where
  users : List (String × UserRecord)
  totalScreenshots : Nat
  totalOcrEntries : Nat
  lastUpdated : Option Nat
deriving DecidableEq

/-- The initial `clipboardIndex` value of the source. -/
def emptyIndex : ClipboardIndex :=
  { users := [], totalScreenshots := 0, totalOcrEntries := 0, lastUpdated := none }

/-- Property read `users[id]` on the association list. -/
def findUser : List (String × UserRecord) → String → Option UserRecord
  | [], _ => none
  | (k, v) :: rest, id => if k = id then some v else findUser rest id

/-- Property write `users[id] = r`: replaces the first binding in place, or
appends a new binding at the end (JS property-insertion order). -/
def setUser : List (String × UserRecord) → String → UserRecord → List (String × UserRecord)
  | [], id, r => [(id, r)]
  | (k, v) :: rest, id, r =>
    if k = id then (k, r) :: rest else (k, v) :: setUser rest id r

/-! ## The stable comparator sort

`Array.prototype.sort(comparator)`: the engine's sort is stable, so it is
modelled as a stable insertion sort that puts `x` before `y` exactly when
`comparator(x, y) ≤ 0` (ties keep the original order). -/

/-- Stable insertion honouring a JS comparator. -/
def insertJs (c : α → α → Int) (x : α) : List α → List α
  | [] => [x]
  | y :: ys => if c x y ≤ 0 then x :: y :: ys else y :: insertJs c x ys

/-- Stable comparator sort. -/
def sortJs (c : α → α → Int) : List α → List α
  | [] => []
  | x :: xs => insertJs c x (sortJs c xs)

/-! ## The blob gateway and reconciliation -/

/-- One listing entry of the blob gateway. -/
structure Blob where
  pathname : String
  url : String
  size : Nat
  uploadedAt : Nat
deriving DecidableEq

/-- The `ocr` object of a stored OCR JSON payload (all fields may be absent). -/
structure OcrFields where
  text : Option String := none
  confidence : Option Nat := none
  wordCount : Option Nat := none
  characterCount : Option Nat := none
  hasText : Option Bool := none
  method : Option String := none
deriving DecidableEq

/-- A fetched OCR JSON payload, as far as reconciliation reads it
(`ocrData.ocr?.…`). -/
structure FetchedPayload where
  ocr : Option OcrFields := none
deriving DecidableEq

/-- Split on `/`, the `String.prototype.split('/')` of the source. -/
def splitSlash : List Char → List (List Char)
  | [] => [[]]
  | c :: cs =>
    let r := splitSlash cs
    if c = '/' then [] :: r
    else
      match r with
      | [] => [[c]]
      | h :: t => (c :: h) :: t

/-- The `blob.pathname.split('/')[1]` user-id extraction (empty string when
the segment is missing, which the caller filters out). -/
def pathUserId (p : String) : String := String.mk ((splitSlash p.data).getD 1 [])

/-- The `split('/').pop()` last path segment. -/
def lastSegment (p : String) : String :=
  String.mk (((splitSlash p.data).getLast?).getD [])

/-- First-occurrence deduplication, `[...new Set(xs)]`. -/
def dedupFirst (l : List String) : List String := go l []
where
  /-- Worker carrying the set of already-seen elements. -/
  go : List String → List String → List String
  | [], _ => []
  | x :: xs, seen =>
    if seen.contains x then go xs seen else x :: go xs (x :: seen)

/-- The user ids reconciliation iterates over: parsed from every blob under
`screenshots/` or `ocr/`, non-empty, first occurrence kept. -/
def userIdsOfBlobs (blobs : List Blob) : List String :=
  dedupFirst
    (((blobs.filter (fun b =>
        startsWithStr "screenshots/" b.pathname || startsWithStr "ocr/" b.pathname)).map
      (fun b => pathUserId b.pathname)).filter (fun u => u ≠ ""))

/-- The comparator `(a, b) => new Date(b.uploadedAt) - new Date(a.uploadedAt)`
(most recent first). -/
def blobCmpDesc (a b : Blob) : Int := (b.uploadedAt : Int) - a.uploadedAt

/-- A reconciliation-built screenshot entry. -/
def blobToScreenshot (b : Blob) : ScreenshotEntry :=
  { id := stripExt ".png" (lastSegment b.pathname)
    filename := b.pathname
    timestamp := b.uploadedAt
    uploadedAt := b.uploadedAt
    accessType := some "Unknown"
    sessionInfo := none
    size := b.size
    blobUrl := b.url }

/-- A reconciliation-built OCR entry: the hydrated preview fields are present
exactly when the fetch of the blob's JSON succeeded. -/
def blobToOcrEntry (fetchOcr : String → Option FetchedPayload) (b : Blob) : OcrEntry :=
  let base : OcrEntry :=
    { id := stripExt ".json" (lastSegment b.pathname)
      filename := b.pathname
      timestamp := b.uploadedAt
      uploadedAt := b.uploadedAt
      size := b.size
      blobUrl := b.url }
  match fetchOcr b.url with
  | none => base
  | some pl =>
    { base with
      extractedText := some (jsOrStr (pl.ocr.bind (·.text)) "")
      wordCount := some (jsOrNat (pl.ocr.bind (·.wordCount)) 0)
      hasText := some (jsOrBool (pl.ocr.bind (·.hasText)) false)
      method := some (jsOrStr (pl.ocr.bind (·.method)) "unknown")
      confidence := some (jsOrNat (pl.ocr.bind (·.confidence)) 0) }

/-- The per-user body of the reconciliation loop: create the user if absent
(fully populated with fallbacks), then overwrite its two entry sequences from
the sorted listing and reset its per-user counters. -/
def syncStep (blobs : List Blob) (fetchOcr : String → Option FetchedPayload)
    (now : Nat) (users : List (String × UserRecord)) (uid : String) :
    List (String × UserRecord) :=
  let sBlobs := blobs.filter (fun b => startsWithStr ("screenshots/" ++ uid ++ "/") b.pathname)
  let oBlobs := blobs.filter (fun b => startsWithStr ("ocr/" ++ uid ++ "/") b.pathname)
  let base : UserRecord :=
    match findUser users uid with
    | some r => r
    | none =>
      { username := uid
        deviceInfo := .empty
        screenshots := []
        ocrEntries := []
        firstSeen := now
        lastActive := now
        totalScreenshots := sBlobs.length
        totalOcrEntries := oBlobs.length }
  setUser users uid
    { base with
      screenshots := (sortJs blobCmpDesc sBlobs).map blobToScreenshot
      ocrEntries := (sortJs blobCmpDesc oBlobs).map (blobToOcrEntry fetchOcr)
      totalScreenshots := sBlobs.length
      totalOcrEntries := oBlobs.length }

/-- The `syncDataFromBlobs` reconciler.  `listing = none` models a failed
`list()` call, whose exception the source catches before any mutation. -/
def syncDataFromBlobs (idx : ClipboardIndex) (listing : Option (List Blob))
    (fetchOcr : String → Option FetchedPayload) (now : Nat) : ClipboardIndex :=
  match listing with
  | none => idx
  | some blobs =>
    { users := (userIdsOfBlobs blobs).foldl (syncStep blobs fetchOcr now) idx.users
      totalScreenshots := (blobs.filter (fun b => startsWithStr "screenshots/" b.pathname)).length
      totalOcrEntries := (blobs.filter (fun b => startsWithStr "ocr/" b.pathname)).length
      lastUpdated := some now }

/-! ## Requests, responses and access control -/

/-- The parts of a request that access control reads. -/
structure Request where
  headerAdminKey : Option String := none
  bodyAdminKey : Option String := none
deriving DecidableEq

/-- The hard-coded clipboard admin key of the source. -/
def HARDCODED_ADMIN_KEY : String := "122316"

/-- The `validateClipboardAccess` guard:
`(req.headers['x-admin-key'] || req.body?.adminKey) === HARDCODED_ADMIN_KEY`. -/
def validateClipboardAccess (req : Request) : Bool :=
  match jsOrS req.headerAdminKey req.bodyAdminKey with
  | some k => k = HARDCODED_ADMIN_KEY
  | none => false

/-- A search hit: the spread OCR entry plus the four added fields. -/
structure SearchResult where
  entry : OcrEntry
  userId : String
  username : String
  matchHighlight : String
  matchCount : Nat
deriving DecidableEq

/-- An exported question record of `handleExportQuestions`. -/
structure ExportedQuestion where
  id : String
  userId : String
  username : String
  questionNumber : Option Nat
  questionText : Option String
  answerChoices : Option (List AnswerChoice)
  uploadedAt : Nat
  confidence : Option Nat
  originalText : Option String
deriving DecidableEq

/-- The claim-relevant payload of a response (other bodies are abstracted). -/
inductive RespData where
  | nothing
  | searchResults (results : List SearchResult)
  | questions (qs : List ExportedQuestion)
deriving DecidableEq

/-- A response, abstracted to status, success flag, redirect target and the
claim-relevant payload. -/
structure Response where
  status : Nat
  success : Bool
  redirect : Option String := none
  data : RespData := .nothing
deriving DecidableEq

/-- The 403 `AccessDenied` response every guarded handler returns. -/
def accessDeniedResponse : Response := { status := 403, success := false }

/-- A 400 validation failure. -/
def validationErrorResponse : Response := { status := 400, success := false }

/-- A 404 response. -/
def notFoundResponse : Response := { status := 404, success := false }

/-- A 500 response (upstream/blob failure surfaced by a `catch`). -/
def serverErrorResponse : Response := { status := 500, success := false }

/-! ## Upload handlers

`generateId()` and `Date.now()` are nondeterministic in the source and are
passed in as `newId` and `now`; the blob gateway's `put` is the function
`putF : path → Option url` (`none` = the write throws).  Each handler returns
the response, the updated index, and the list of blob urls it tried to
delete. -/

/-- The destructured body of `handleScreenshotUpload`. -/
structure ScreenshotUploadBody where
  userId : Option String := none
  username : Option String := none
  deviceId : Option String := none
  hostname : Option String := none
  platform : Option String := none
  accessType : Option String := none
  timestamp : Option Nat := none
  macAddresses : Option (List String) := none
  imageData : Option String := none
  sessionInfo : Option String := none
deriving DecidableEq

/-- The `handleScreenshotUpload` handler (base64 decoding is abstracted: the
stored entry's `size` is the length of the supplied image data). -/
def handleScreenshotUpload (idx : ClipboardIndex) (body : ScreenshotUploadBody)
    (newId : String) (now : Nat) (putF : String → Option String) :
    Response × ClipboardIndex × List String :=
  if !(truthyS body.userId && truthyS body.imageData && truthyS body.username) then
    (validationErrorResponse, idx, [])
  else
    let userId := body.userId.getD ""
    let fileName := "screenshots/" ++ userId ++ "/" ++ newId ++ ".png"
    match putF fileName with
    | none => (serverErrorResponse, idx, [])
    | some url =>
      let base : UserRecord :=
        match findUser idx.users userId with
        | some r => r
        | none =>
          { username := body.username.getD ""
            deviceInfo := .fromScreenshot body.hostname body.platform body.deviceId
              body.macAddresses
            screenshots := []
            ocrEntries := []
            firstSeen := now
            lastActive := now
            totalScreenshots := 0
            totalOcrEntries := 0 }
      let entry : ScreenshotEntry :=
        { id := newId
          filename := fileName
          timestamp := jsOrNat body.timestamp now
          uploadedAt := now
          accessType := body.accessType
          sessionInfo := body.sessionInfo
          size := (body.imageData.getD "").length
          blobUrl := url }
      let newShots := entry :: base.screenshots
      let keep := if newShots.length > 50 then newShots.take 50 else newShots
      let evicted := if newShots.length > 50 then newShots.drop 50 else []
      let r := { base with
        screenshots := keep
        lastActive := now
        totalScreenshots := base.totalScreenshots + 1 }
      ({ status := 200, success := true },
       { idx with
         users := setUser idx.users userId r
         totalScreenshots := idx.totalScreenshots + 1
         lastUpdated := some now },
       evicted.map (fun e => e.blobUrl))

/-- The `metadata` object of an OCR upload payload. -/
structure OcrMetadata where
  user : Option String := none
  deviceId : Option String := none
  hostname : Option String := none
  platform : Option String := none
  accessType : Option String := none
  timestamp : Option Nat := none
  screenshotPath : Option String := none
  screenshotFileName : Option String := none
deriving DecidableEq

/-- An OCR upload body (`stats` is an opaque passthrough). -/
structure OcrUploadBody where
  metadata : Option OcrMetadata := none
  ocr : Option OcrFields := none
  stats : Option String := none
deriving DecidableEq

/-- The owning-user fallback of the OCR upload:
`metadata.user || metadata.deviceId || 'unknown'`. -/
def computeOcrUserId (m : OcrMetadata) : String :=
  (jsOrS m.user (jsOrS m.deviceId (some "unknown"))).getD "unknown"

/-- The `handleOcrUpload` handler of src/unnamed/part_002 (the AI-processing
variant): validates the payload shape, runs the normalizer, stores the blob,
upserts the user, prepends the entry, and enforces the 100-entry retention.
The serialized-payload byte length is abstracted to 0 (no claim reads it). -/
def handleOcrUpload (idx : ClipboardIndex) (body : Option OcrUploadBody)
    (newId : String) (now : Nat) (putF : String → Option String) :
    Response × ClipboardIndex × List String :=
  match body with
  | none => (validationErrorResponse, idx, [])
  | some ocrData =>
    match ocrData.metadata, ocrData.ocr with
    | some metadata, some ocr =>
      let userId := computeOcrUserId metadata
      let aiProcessed := cleanOcrTextWithAI (jsOrStr ocr.text "")
      let fileName := "ocr/" ++ userId ++ "/" ++ newId ++ ".json"
      match putF fileName with
      | none => (serverErrorResponse, idx, [])
      | some url =>
        let base : UserRecord :=
          match findUser idx.users userId with
          | some r => r
          | none =>
            { username := jsOrStr metadata.user userId
              deviceInfo := .fromOcr (jsOrStr metadata.hostname "Unknown")
                (jsOrStr metadata.platform "Unknown")
                (jsOrStr metadata.deviceId "Unknown")
                (jsOrStr metadata.accessType "Unknown")
              screenshots := []
              ocrEntries := []
              firstSeen := now
              lastActive := now
              totalScreenshots := 0
              totalOcrEntries := 0 }
        let entry : OcrEntry :=
          { id := newId
            filename := fileName
            timestamp := jsOrNat metadata.timestamp now
            uploadedAt := now
            size := 0
            blobUrl := url
            screenshotPath := metadata.screenshotPath
            screenshotFileName := metadata.screenshotFileName
            extractedText := some (jsOrStr ocr.text "")
            textConfidence := some (jsOrNat ocr.confidence 0)
            wordCount := some (jsOrNat ocr.wordCount 0)
            characterCount := some (jsOrNat ocr.characterCount 0)
            hasText := some (jsOrBool ocr.hasText false)
            method := some (jsOrStr ocr.method "unknown")
            sessionStats := ocrData.stats
            aiProcessed := some aiProcessed
            isQuestion := some aiProcessed.isQuestion
            questionNumber := aiProcessed.questionNumber
            cleanedText := some aiProcessed.cleanedText
            answerChoices := some aiProcessed.answerChoices
            aiConfidence := some aiProcessed.confidence }
        let newEntries := entry :: base.ocrEntries
        let keep := if newEntries.length > 100 then newEntries.take 100 else newEntries
        let evicted := if newEntries.length > 100 then newEntries.drop 100 else []
        let r := { base with
          ocrEntries := keep
          lastActive := now
          totalOcrEntries := base.totalOcrEntries + 1 }
        ({ status := 200, success := true },
         { idx with
           users := setUser idx.users userId r
           totalOcrEntries := idx.totalOcrEntries + 1
           lastUpdated := some now },
         evicted.map (fun e => e.blobUrl))
    | _, _ => (validationErrorResponse, idx, [])

/-! ## The search engine -/

/-- A token of the regex the source builds from the (lowercased) search term
with `new RegExp(searchTerm, 'g')`.  The model covers patterns whose
characters are ordinary or `.`; theorems about other metacharacters are not
stated. -/
inductive RTok where
  | lit (c : Char)
  | dot
deriving DecidableEq

/-- The pattern the term denotes under the model. -/
def parsePattern (term : List Char) : List RTok :=
  term.map (fun c => if c = '.' then RTok.dot else RTok.lit c)

/-- One-token match (`.` does not match line terminators). -/
def tokMatch : RTok → Char → Bool
  | .lit a, c => a = c
  | .dot, c => c ≠ '\n' && c ≠ '\r'

/-- Anchored match of the whole pattern at the start of the text. -/
def matchHere : List RTok → List Char → Bool
  | [], _ => true
  | _ :: _, [] => false
  | t :: ts, c :: cs => tokMatch t c && matchHere ts cs

/-- Fuelled worker counting leftmost non-overlapping matches. -/
def regexCountF (p : List RTok) : Nat → List Char → Nat
  | _, [] => 0
  | 0, _ => 0
  | fuel + 1, c :: cs =>
    if matchHere p (c :: cs) then 1 + regexCountF p fuel (cs.drop (p.length - 1))
    else regexCountF p fuel cs

/-- The global match count `(text.match(regex) || []).length`: leftmost,
non-overlapping.  Fuel equal to the text length always suffices. -/
def regexCountG (p : List RTok) (l : List Char) : Nat := regexCountF p l.length l

/-- Fuelled worker counting literal substring occurrences. -/
def specOccF (pat : List Char) : Nat → List Char → Nat
  | _, [] => 0
  | 0, _ => 0
  | fuel + 1, c :: cs =>
    if isPrefixL pat (c :: cs) then 1 + specOccF pat fuel (cs.drop (pat.length - 1))
    else specOccF pat fuel cs

/-- The spec's match count: the number of leftmost non-overlapping literal
occurrences of `pat` in the text. -/
def specOccCount (pat l : List Char) : Nat := specOccF pat l.length l

/-- The `getTextHighlight` helper (default `contextLength = 150`). -/
def getTextHighlight (text searchTerm : String) : String :=
  if text = "" || searchTerm = "" then ""
  else
    match indexOfSub (lowerS searchTerm).data (lowerS text).data with
    | none => String.mk (text.data.take 150)
    | some i =>
      let s := i - 75
      let e := min text.data.length (i + searchTerm.data.length + 75)
      String.mk ((text.data.take e).drop s)

/-- The filter of the search loop:
`entry.extractedText && entry.extractedText.toLowerCase().includes(searchTerm)`
(the term is already lowercased by the caller). -/
def ocrEntryMatches (searchTerm : String) (e : OcrEntry) : Bool :=
  match e.extractedText with
  | none => false
  | some t => t ≠ "" && containsSub searchTerm.data (lowerS t).data

/-- Builds one search hit for an entry that passed the filter. -/
def mkSearchResult (uId uname searchTerm : String) (e : OcrEntry) : SearchResult :=
  { entry := e
    userId := uId
    username := uname
    matchHighlight := getTextHighlight (e.extractedText.getD "") searchTerm
    matchCount := regexCountG (parsePattern searchTerm.data)
      (lowerS (e.extractedText.getD "")).data }

/-- The relevance comparator `(a, b) => b.matchCount - a.matchCount`. -/
def searchCmp (a b : SearchResult) : Int := (b.matchCount : Int) - a.matchCount

/-- The accumulation loop of the search: per scoped user, filter the OCR
entries and decorate the hits (`searchTerm` arrives already lowercased). -/
def searchCollected (idx : ClipboardIndex) (searchTerm : String)
    (userScope : Option String) : List SearchResult :=
  let usersToSearch :=
    if truthyS userScope then [userScope.getD ""] else idx.users.map (fun p => p.1)
  (usersToSearch.map (fun uId =>
    match findUser idx.users uId with
    | none => []
    | some r =>
      (r.ocrEntries.filter (ocrEntryMatches searchTerm)).map
        (mkSearchResult uId r.username searchTerm))).flatten

/-- The search core over a (reconciled) index: scope, filter, decorate, then
sort by match count descending. -/
def searchTextResults (idx : ClipboardIndex) (searchQuery : String)
    (userScope : Option String) : List SearchResult :=
  sortJs searchCmp (searchCollected idx (lowerS searchQuery) userScope)

/-- The `handleSearchText` handler: guard, parameter validation, reconcile,
then the search core. -/
def handleSearchText (req : Request) (searchQuery userScope : Option String)
    (idx : ClipboardIndex) (listing : Option (List Blob))
    (fetchOcr : String → Option FetchedPayload) (now : Nat) :
    Response × ClipboardIndex × List String :=
  if !(validateClipboardAccess req) then (accessDeniedResponse, idx, [])
  else if !(truthyS searchQuery) then (validationErrorResponse, idx, [])
  else
    let idx1 := syncDataFromBlobs idx listing fetchOcr now
    ({ status := 200, success := true
       data := .searchResults (searchTextResults idx1 (searchQuery.getD "") userScope) },
     idx1, [])

/-! ## Question export -/

/-- The export filter `entry.isQuestion && entry.aiConfidence > 0.5`
(absent fields are falsy; the 0.5 threshold is 5 tenths). -/
def exportFilter (e : OcrEntry) : Bool :=
  e.isQuestion.getD false &&
  (match e.aiConfidence with
   | some c => 5 < c
   | none => false)

/-- Builds one exported question from a filtered entry. -/
def mkExportedQuestion (uId uname : String) (e : OcrEntry) : ExportedQuestion :=
  { id := e.id
    userId := uId
    username := uname
    questionNumber := e.questionNumber
    questionText := e.cleanedText
    answerChoices := e.answerChoices
    uploadedAt := e.uploadedAt
    confidence := e.aiConfidence
    originalText := e.extractedText }

/-- The export comparator: question numbers ascending when both are truthy,
else upload time descending. -/
def exportCmp (a b : ExportedQuestion) : Int :=
  if a.questionNumber.getD 0 ≠ 0 && b.questionNumber.getD 0 ≠ 0 then
    (a.questionNumber.getD 0 : Int) - b.questionNumber.getD 0
  else (b.uploadedAt : Int) - a.uploadedAt

/-- The accumulation loop of the export: per scoped user, the filtered,
decorated question records. -/
def exportCollected (idx : ClipboardIndex) (userScope : Option String) :
    List ExportedQuestion :=
  let usersToExport :=
    if truthyS userScope then [userScope.getD ""] else idx.users.map (fun p => p.1)
  (usersToExport.map (fun uId =>
    match findUser idx.users uId with
    | none => []
    | some r =>
      (r.ocrEntries.filter exportFilter).map (mkExportedQuestion uId r.username))).flatten

/-- The export core over a (reconciled) index: scope, filter, decorate, then
sort with the export comparator. -/
def exportQuestionsData (idx : ClipboardIndex) (userScope : Option String) :
    List ExportedQuestion :=
  sortJs exportCmp (exportCollected idx userScope)

/-- The `handleExportQuestions` handler (the HTML rendering of the `html`
format is a pure function of the same list and is abstracted). -/
def handleExportQuestions (req : Request) (userScope : Option String)
    (idx : ClipboardIndex) (listing : Option (List Blob))
    (fetchOcr : String → Option FetchedPayload) (now : Nat) :
    Response × ClipboardIndex × List String :=
  if !(validateClipboardAccess req) then (accessDeniedResponse, idx, [])
  else
    let idx1 := syncDataFromBlobs idx listing fetchOcr now
    ({ status := 200, success := true
       data := .questions (exportQuestionsData idx1 userScope) },
     idx1, [])

/-! ## The remaining read / delete / admin handlers -/

/-- Removal of the first element satisfying `p` (the `findIndex` + `splice`
pair), returning it and the remaining list. -/
def removeFirstBy (p : α → Bool) : List α → Option (α × List α)
  | [] => none
  | x :: xs =>
    if p x then some (x, xs)
    else (removeFirstBy p xs).map (fun t => (t.1, x :: t.2))

/-- The `handleListUsers` handler (its response body is a projection of the
index and is abstracted). -/
def handleListUsers (req : Request) (idx : ClipboardIndex)
    (listing : Option (List Blob)) (fetchOcr : String → Option FetchedPayload)
    (now : Nat) : Response × ClipboardIndex × List String :=
  if !(validateClipboardAccess req) then (accessDeniedResponse, idx, [])
  else
    ({ status := 200, success := true }, syncDataFromBlobs idx listing fetchOcr now, [])

/-- The `handleGetStats` handler (body abstracted). -/
def handleGetStats (req : Request) (idx : ClipboardIndex)
    (listing : Option (List Blob)) (fetchOcr : String → Option FetchedPayload)
    (now : Nat) : Response × ClipboardIndex × List String :=
  if !(validateClipboardAccess req) then (accessDeniedResponse, idx, [])
  else
    ({ status := 200, success := true }, syncDataFromBlobs idx listing fetchOcr now, [])

/-- The `handleGetUserScreenshots` handler (body abstracted). -/
def handleGetUserScreenshots (req : Request) (userId : Option String)
    (idx : ClipboardIndex) (listing : Option (List Blob))
    (fetchOcr : String → Option FetchedPayload) (now : Nat) :
    Response × ClipboardIndex × List String :=
  if !(validateClipboardAccess req) then (accessDeniedResponse, idx, [])
  else if !(truthyS userId) then (validationErrorResponse, idx, [])
  else
    let idx1 := syncDataFromBlobs idx listing fetchOcr now
    match findUser idx1.users (userId.getD "") with
    | none => (notFoundResponse, idx1, [])
    | some _ => ({ status := 200, success := true }, idx1, [])

/-- The `handleGetUserOcr` handler (body abstracted). -/
def handleGetUserOcr (req : Request) (userId : Option String)
    (idx : ClipboardIndex) (listing : Option (List Blob))
    (fetchOcr : String → Option FetchedPayload) (now : Nat) :
    Response × ClipboardIndex × List String :=
  if !(validateClipboardAccess req) then (accessDeniedResponse, idx, [])
  else if !(truthyS userId) then (validationErrorResponse, idx, [])
  else
    let idx1 := syncDataFromBlobs idx listing fetchOcr now
    match findUser idx1.users (userId.getD "") with
    | none => (notFoundResponse, idx1, [])
    | some _ => ({ status := 200, success := true }, idx1, [])

/-- The `handleGetScreenshot` handler.  Note: the source performs no
`validateClipboardAccess` check here — the handler reads only
`req.query.screenshotId` and `req.query.userId`, reconciles, and redirects to
the blob url. -/
def handleGetScreenshot (screenshotId userId : Option String)
    (idx : ClipboardIndex) (listing : Option (List Blob))
    (fetchOcr : String → Option FetchedPayload) (now : Nat) :
    Response × ClipboardIndex × List String :=
  if !(truthyS screenshotId && truthyS userId) then (validationErrorResponse, idx, [])
  else
    let idx1 := syncDataFromBlobs idx listing fetchOcr now
    match findUser idx1.users (userId.getD "") with
    | none => (notFoundResponse, idx1, [])
    | some r =>
      match r.screenshots.find? (fun s => s.id == screenshotId.getD "") with
      | none => (notFoundResponse, idx1, [])
      | some s =>
        ({ status := 302, success := true, redirect := some s.blobUrl }, idx1, [])

/-- The `handleDeleteScreenshot` handler. -/
def handleDeleteScreenshot (req : Request) (screenshotId userId : Option String)
    (idx : ClipboardIndex) (listing : Option (List Blob))
    (fetchOcr : String → Option FetchedPayload) (now : Nat) :
    Response × ClipboardIndex × List String :=
  if !(validateClipboardAccess req) then (accessDeniedResponse, idx, [])
  else if !(truthyS screenshotId && truthyS userId) then (validationErrorResponse, idx, [])
  else
    let idx1 := syncDataFromBlobs idx listing fetchOcr now
    match findUser idx1.users (userId.getD "") with
    | none => (notFoundResponse, idx1, [])
    | some r =>
      match removeFirstBy (fun s => s.id == screenshotId.getD "") r.screenshots with
      | none => (notFoundResponse, idx1, [])
      | some (s, rest) =>
        ({ status := 200, success := true },
         { idx1 with
           users := setUser idx1.users (userId.getD "")
             { r with screenshots := rest, totalScreenshots := r.totalScreenshots - 1 }
           totalScreenshots := idx1.totalScreenshots - 1
           lastUpdated := some now },
         [s.blobUrl])

/-- The `handleDeleteOcr` handler. -/
def handleDeleteOcr (req : Request) (ocrId userId : Option String)
    (idx : ClipboardIndex) (listing : Option (List Blob))
    (fetchOcr : String → Option FetchedPayload) (now : Nat) :
    Response × ClipboardIndex × List String :=
  if !(validateClipboardAccess req) then (accessDeniedResponse, idx, [])
  else if !(truthyS ocrId && truthyS userId) then (validationErrorResponse, idx, [])
  else
    let idx1 := syncDataFromBlobs idx listing fetchOcr now
    match findUser idx1.users (userId.getD "") with
    | none => (notFoundResponse, idx1, [])
    | some r =>
      match removeFirstBy (fun o => o.id == ocrId.getD "") r.ocrEntries with
      | none => (notFoundResponse, idx1, [])
      | some (o, rest) =>
        ({ status := 200, success := true },
         { idx1 with
           users := setUser idx1.users (userId.getD "")
             { r with ocrEntries := rest, totalOcrEntries := r.totalOcrEntries - 1 }
           totalOcrEntries := idx1.totalOcrEntries - 1
           lastUpdated := some now },
         [o.blobUrl])

/-- The `handleClearUserClipboard` handler. -/
def handleClearUserClipboard (req : Request) (userId : Option String)
    (idx : ClipboardIndex) (listing : Option (List Blob))
    (fetchOcr : String → Option FetchedPayload) (now : Nat) :
    Response × ClipboardIndex × List String :=
  if !(validateClipboardAccess req) then (accessDeniedResponse, idx, [])
  else if !(truthyS userId) then (validationErrorResponse, idx, [])
  else
    let idx1 := syncDataFromBlobs idx listing fetchOcr now
    match findUser idx1.users (userId.getD "") with
    | none => (notFoundResponse, idx1, [])
    | some r =>
      let cleared : UserRecord :=
        { r with
          screenshots := []
          ocrEntries := []
          totalScreenshots := 0
          totalOcrEntries := 0 }
      ({ status := 200, success := true },
       { idx1 with
         users := setUser idx1.users (userId.getD "") cleared
         totalScreenshots := idx1.totalScreenshots - r.screenshots.length
         totalOcrEntries := idx1.totalOcrEntries - r.ocrEntries.length
         lastUpdated := some now },
       r.screenshots.map (fun s => s.blobUrl) ++ r.ocrEntries.map (fun o => o.blobUrl))

/-! ## Spec-side definitions for the search claim (C6) -/

/-- The regex metacharacters of JavaScript pattern syntax.  The search model
interprets every other character literally (and `.` as the wildcard), so the
amended claim is restricted to terms built from ordinary characters. -/
def regexMetaChars : List Char :=
  ['\\', '^', '$', '.', '|', '?', '*', '+', '(', ')', '[', ']',
   Char.ofNat 123, Char.ofNat 125]

/-- Claim C6's membership condition, following the spec's words: the entry's
`extractedText` contains the term case-insensitively (both sides
ASCII-lowercased; an absent text matches nothing). -/
def specContains (q : String) (e : OcrEntry) : Bool :=
  match e.extractedText with
  | some t => containsSub (lowerS q).data (lowerS t).data
  | none => false

/-! ## Concrete scenarios used by counterexamples and witnesses -/

/-- A request carrying no admin key at all. -/
def noKeyRequest : Request := {}

/-- A request carrying the correct admin key in the header. -/
def okRequest : Request := { headerAdminKey := some HARDCODED_ADMIN_KEY }

/-- A durable screenshot blob of user `u`. -/
def sBlobU : Blob :=
  { pathname := "screenshots/u/s1.png", url := "https://b/s1", size := 4, uploadedAt := 50 }

/-- A durable OCR blob of user `u`. -/
def oBlobU : Blob :=
  { pathname := "ocr/u/o1.json", url := "https://b/o1", size := 7, uploadedAt := 40 }

/-- A fetch that fails for every url (every hydration attempt throws). -/
def fetchFail : String → Option FetchedPayload := fun _ => none

/-- A blob gateway whose `put` succeeds for every path. -/
def putOk : String → Option String := fun p => some ("blob://" ++ p)

/-- The retention scenario: 51 screenshot uploads for the fresh user `u`
(limit 50), collecting the evicted-blob deletions. -/
def retentionRun : ClipboardIndex × List String :=
  (List.range 51).foldl
    (fun acc i =>
      let r := handleScreenshotUpload acc.1
        { userId := some "u", username := some "alice", imageData := some "img" }
        ("s" ++ toString i) (1000 + i) putOk
      (r.2.1, acc.2 ++ r.2.2))
    (emptyIndex, [])

/-- A fetch hydrating `oBlobU` with a text containing `a.c` literally once and
matching the regex `a.c` twice. -/
def dotFetch : String → Option FetchedPayload :=
  fun _ => some { ocr := some { text := some "a.c a0c" } }

/-- The reconciled index of the dot-term search counterexample. -/
def dotIdx : ClipboardIndex := syncDataFromBlobs emptyIndex (some [oBlobU]) dotFetch 10

/-- Two OCR blobs of two users for the `osmosis` search scenario. -/
def osmBlobA : Blob :=
  { pathname := "ocr/u1/a.json", url := "https://b/a", size := 1, uploadedAt := 5 }

/-- Second blob of the `osmosis` scenario. -/
def osmBlobB : Blob :=
  { pathname := "ocr/u2/b.json", url := "https://b/b", size := 1, uploadedAt := 6 }

/-- Hydration for the `osmosis` scenario: only user `u1`'s text contains the
term (twice). -/
def osmFetch : String → Option FetchedPayload := fun u =>
  if u == "https://b/a" then some { ocr := some { text := some "Osmosis is osmosis" } }
  else some { ocr := some { text := some "photosynthesis rules" } }

/-- The reconciled index of the `osmosis` scenario. -/
def osmIdx : ClipboardIndex :=
  syncDataFromBlobs emptyIndex (some [osmBlobA, osmBlobB]) osmFetch 10

/-- An OCR upload whose text parses to question number 1 (no choices). -/
def exportBodyA : OcrUploadBody :=
  { metadata := some { user := some "u" }
    ocr := some { text := some "Question 1 which of these is correct here" } }

/-- An OCR upload whose text parses to a question with two choices and no
number. -/
def exportBodyB : OcrUploadBody :=
  { metadata := some { user := some "u" }
    ocr := some { text := some "Pick which answer fits (A) One (B) Two" } }

/-- The export scenario: two OCR uploads (the numbered one older, the
unnumbered one newer); the export then reconciles against a failed listing, so
the upload-time entries survive. -/
def exportRun : ClipboardIndex :=
  let r1 := handleOcrUpload emptyIndex (some exportBodyA) "qa" 100 putOk
  let r2 := handleOcrUpload r1.2.1 (some exportBodyB) "qb" 200 putOk
  r2.2.1

/-- A smaller export scenario holding only the numbered question. -/
def exportRunA : ClipboardIndex :=
  (handleOcrUpload emptyIndex (some exportBodyA) "qa" 100 putOk).2.1

end Septsat

namespace Septsat

/-! # Supporting lemmas -/

theorem find_setUser_self (us : List (String × UserRecord)) (id : String) (r : UserRecord) :
    findUser (setUser us id r) id = some r := by
  induction us with
  | nil => simp [setUser, findUser]
  | cons p rest ih =>
    by_cases h : p.1 = id
    · simp [setUser, findUser, h]
    · simp [setUser, findUser, h, ih]

theorem find_setUser_ne (us : List (String × UserRecord)) {i j : String}
    (r : UserRecord) (h : i ≠ j) : findUser (setUser us j r) i = findUser us i := by
  have hji : j ≠ i := fun hh => h hh.symm
  induction us with
  | nil => simp [setUser, findUser, hji]
  | cons p rest ih =>
    obtain ⟨k, v⟩ := p
    by_cases hk : k = j
    · subst hk
      simp [setUser, findUser, hji]
    · by_cases hki : k = i <;> simp [setUser, findUser, hk, hki, ih, h, hji]

theorem setUser_same {us : List (String × UserRecord)} {id : String} {r : UserRecord}
    (h : findUser us id = some r) : setUser us id r = us := by
  induction us with
  | nil => simp [findUser] at h
  | cons p rest ih =>
    by_cases hp : p.1 = id
    · simp only [findUser, hp, if_pos] at h
      cases p with
      | mk k v => simp_all [setUser]
    · simp only [findUser, hp, if_neg] at h
      simp [setUser, hp, ih h]

/-! ## Lemmas about the comparator sort -/

theorem mem_insertJs {c : α → α → Int} {x a : α} {l : List α} :
    x ∈ insertJs c a l ↔ x = a ∨ x ∈ l := by
  induction l with
  | nil => simp [insertJs]
  | cons y ys ih =>
    simp only [insertJs]
    split
    · simp
    · simp only [List.mem_cons, ih]
      tauto

theorem mem_sortJs {c : α → α → Int} {x : α} {l : List α} :
    x ∈ sortJs c l ↔ x ∈ l := by
  induction l with
  | nil => simp [sortJs]
  | cons y ys ih => simp [sortJs, mem_insertJs, ih]

theorem length_insertJs {c : α → α → Int} (a : α) (l : List α) :
    (insertJs c a l).length = l.length + 1 := by
  induction l with
  | nil => simp [insertJs]
  | cons y ys ih =>
    simp only [insertJs]
    split <;> simp [ih]

theorem length_sortJs {c : α → α → Int} (l : List α) :
    (sortJs c l).length = l.length := by
  induction l with
  | nil => simp [sortJs]
  | cons y ys ih => simp [sortJs, length_insertJs, ih]

theorem pairwise_insertJs {c : α → α → Int} {S : List α}
    (total : ∀ x ∈ S, ∀ y ∈ S, c x y ≤ 0 ∨ c y x ≤ 0)
    (trans : ∀ x ∈ S, ∀ y ∈ S, ∀ z ∈ S, c x y ≤ 0 → c y z ≤ 0 → c x z ≤ 0)
    {a : α} (ha : a ∈ S) :
    ∀ {l : List α}, (∀ y ∈ l, y ∈ S) →
      l.Pairwise (fun x y => c x y ≤ 0) →
      (insertJs c a l).Pairwise (fun x y => c x y ≤ 0) := by
  intro l
  induction l with
  | nil => intro _ _; simp [insertJs]
  | cons y ys ih =>
    intro hsub hpw
    rw [List.pairwise_cons] at hpw
    simp only [insertJs]
    split
    · rename_i hay
      refine List.Pairwise.cons ?_ (List.Pairwise.cons hpw.1 hpw.2)
      intro z hz
      rcases List.mem_cons.mp hz with hz | hz
      · exact hz ▸ hay
      · exact trans a ha y (hsub y (by simp)) z (hsub z (by simp [hz])) hay (hpw.1 z hz)
    · rename_i hay
      refine List.Pairwise.cons ?_ (ih (fun z hz => hsub z (by simp [hz])) hpw.2)
      intro z hz
      rcases mem_insertJs.mp hz with hz | hz
      · subst hz
        rcases total z ha y (hsub y (by simp)) with h | h
        · exact absurd h hay
        · exact h
      · exact hpw.1 z hz

theorem pairwise_sortJs {c : α → α → Int} (l : List α)
    (total : ∀ x ∈ l, ∀ y ∈ l, c x y ≤ 0 ∨ c y x ≤ 0)
    (trans : ∀ x ∈ l, ∀ y ∈ l, ∀ z ∈ l, c x y ≤ 0 → c y z ≤ 0 → c x z ≤ 0) :
    (sortJs c l).Pairwise (fun x y => c x y ≤ 0) := by
  suffices h : ∀ m : List α, (∀ y ∈ m, y ∈ l) →
      (sortJs c m).Pairwise (fun x y => c x y ≤ 0) from h l (fun _ h => h)
  intro m
  induction m with
  | nil => intro _; simp [sortJs]
  | cons a ms ih =>
    intro hsub
    exact pairwise_insertJs total trans (hsub a (by simp))
      (fun y hy => hsub y (by simp [mem_sortJs.mp hy]))
      (ih (fun y hy => hsub y (by simp [hy])))

theorem insertJs_congr {c c' : α → α → Int} {a : α}
    (h : ∀ y ∈ l, c a y = c' a y) : insertJs c a l = insertJs c' a l := by
  induction l with
  | nil => rfl
  | cons y ys ih =>
    have hy := h y (by simp)
    simp only [insertJs, hy]
    split
    · rfl
    · rw [ih (fun z hz => h z (by simp [hz]))]

theorem sortJs_congr {c c' : α → α → Int} :
    ∀ l : List α, (∀ x ∈ l, ∀ y ∈ l, c x y = c' x y) → sortJs c l = sortJs c' l := by
  intro l
  induction l with
  | nil => intro _; rfl
  | cons a ls ih =>
    intro h
    simp only [sortJs]
    rw [ih (fun x hx y hy => h x (by simp [hx]) y (by simp [hy]))]
    exact insertJs_congr (fun y hy =>
      h a (by simp) y (by simp [mem_sortJs.mp hy]))

/-! ## Lemmas about the term-regex model -/

theorem matchHere_lits {t : List Char} (hd : ∀ c ∈ t, c ≠ '.') :
    ∀ l, matchHere (parsePattern t) l = isPrefixL t l := by
  induction t with
  | nil => intro l; rfl
  | cons c cs ih =>
    intro l
    have hc : c ≠ '.' := hd c (by simp)
    cases l with
    | nil => simp [parsePattern, matchHere, isPrefixL]
    | cons d ds =>
      have ihd := ih (fun x hx => hd x (by simp [hx])) ds
      have hp : parsePattern (c :: cs) = RTok.lit c :: parsePattern cs := by
        simp [parsePattern, hc]
      rw [hp]
      simp only [matchHere, isPrefixL, tokMatch, ihd]

theorem parsePattern_length (t : List Char) : (parsePattern t).length = t.length :=
  List.length_map ..

theorem regexCountF_eq_specOccF {t : List Char} (hd : ∀ c ∈ t, c ≠ '.') :
    ∀ (fuel : Nat) (l : List Char),
      regexCountF (parsePattern t) fuel l = specOccF t fuel l := by
  intro fuel
  induction fuel with
  | zero => intro l; cases l <;> rfl
  | succ n ih =>
    intro l
    cases l with
    | nil => rfl
    | cons c cs =>
      simp only [regexCountF, specOccF, matchHere_lits hd, parsePattern_length]
      split
      · rw [ih]
      · exact ih cs

theorem regexCountG_eq_specOccCount {t : List Char} (hd : ∀ c ∈ t, c ≠ '.')
    (l : List Char) : regexCountG (parsePattern t) l = specOccCount t l :=
  regexCountF_eq_specOccF hd l.length l

/-! ## Lemmas about the search filter -/

theorem containsSub_nil_false {p : List Char} (h : p ≠ []) : containsSub p [] = false := by
  cases p with
  | nil => exact absurd rfl h
  | cons c cs => rfl

theorem ocrEntryMatches_eq_specContains {q : String} (hq : q ≠ "") (e : OcrEntry) :
    ocrEntryMatches (lowerS q) e = specContains q e := by
  have hqd : (lowerS q).data ≠ [] := by
    intro hnil
    apply hq
    have : q.data.length = 0 := by
      have := congrArg List.length hnil
      simpa [lowerS] using this
    cases hd : q.data with
    | nil => cases q; simp_all
    | cons c cs => rw [hd] at this; simp at this
  cases he : e.extractedText with
  | none => simp [ocrEntryMatches, specContains, he]
  | some t =>
    by_cases ht : t = ""
    · subst ht
      simp only [ocrEntryMatches, specContains, he]
      rw [show (lowerS "").data = ([] : List Char) from rfl,
        containsSub_nil_false hqd]
      simp
    · simp [ocrEntryMatches, specContains, he, ht]

/-! ## Lemmas about the export comparator -/

theorem sortJs_exportCmp_all_numbered {l : List ExportedQuestion}
    (hall : ∀ x ∈ l, x.questionNumber.getD 0 ≠ 0) :
    (sortJs exportCmp l).Pairwise
      (fun a b => a.questionNumber.getD 0 ≤ b.questionNumber.getD 0) := by
  have hc : sortJs exportCmp l
      = sortJs (fun a b =>
          (a.questionNumber.getD 0 : Int) - b.questionNumber.getD 0) l :=
    sortJs_congr l (fun x hx y hy => by simp [exportCmp, hall x hx, hall y hy])
  rw [hc]
  have hp := pairwise_sortJs
    (c := fun a b => (a.questionNumber.getD 0 : Int) - b.questionNumber.getD 0) l
    (fun x _ y _ => by dsimp only; omega)
    (fun x _ y _ z _ h1 h2 => by dsimp only at h1 h2 ⊢; omega)
  exact hp.imp (fun h => by dsimp only at h; omega)

theorem sortJs_exportCmp_none_numbered {l : List ExportedQuestion}
    (hall : ∀ x ∈ l, x.questionNumber.getD 0 = 0) :
    (sortJs exportCmp l).Pairwise (fun a b => b.uploadedAt ≤ a.uploadedAt) := by
  have hc : sortJs exportCmp l
      = sortJs (fun a b => (b.uploadedAt : Int) - a.uploadedAt) l :=
    sortJs_congr l (fun x hx y hy => by simp [exportCmp, hall x hx])
  rw [hc]
  have hp := pairwise_sortJs
    (c := fun a b => (b.uploadedAt : Int) - a.uploadedAt) l
    (fun x _ y _ => by dsimp only; omega)
    (fun x _ y _ z _ h1 h2 => by dsimp only at h1 h2 ⊢; omega)
  exact hp.imp (fun h => by dsimp only at h; omega)

/-! ## Lemmas about the reconciler -/

theorem find_foldl_syncStep_not_mem (bs : List Blob) (f : String → Option FetchedPayload)
    (n : Nat) {u : String} :
    ∀ (ids : List String) (us : List (String × UserRecord)), u ∉ ids →
      findUser (ids.foldl (syncStep bs f n) us) u = findUser us u := by
  intro ids
  induction ids with
  | nil => intro us _; rfl
  | cons v rest ih =>
    intro us hu
    have hvu : u ≠ v := fun h => hu (h ▸ List.mem_cons_self ..)
    rw [List.foldl_cons, ih _ (fun h => hu (List.mem_cons_of_mem _ h))]
    exact find_setUser_ne _ _ hvu

theorem find_syncStep_self (bs : List Blob) (f : String → Option FetchedPayload)
    (n : Nat) (us : List (String × UserRecord)) (u : String) :
    ∃ r, findUser (syncStep bs f n us u) u = some r
      ∧ r.screenshots = (sortJs blobCmpDesc
          (bs.filter (fun b => startsWithStr ("screenshots/" ++ u ++ "/") b.pathname))).map
            blobToScreenshot
      ∧ r.ocrEntries = (sortJs blobCmpDesc
          (bs.filter (fun b => startsWithStr ("ocr/" ++ u ++ "/") b.pathname))).map
            (blobToOcrEntry f)
      ∧ r.totalScreenshots =
          (bs.filter (fun b => startsWithStr ("screenshots/" ++ u ++ "/") b.pathname)).length
      ∧ r.totalOcrEntries =
          (bs.filter (fun b => startsWithStr ("ocr/" ++ u ++ "/") b.pathname)).length := by
  simp only [syncStep]
  exact ⟨_, find_setUser_self .., rfl, rfl, rfl, rfl⟩

theorem find_syncPass_of_mem (bs : List Blob) (f : String → Option FetchedPayload)
    (n : Nat) {u : String} :
    ∀ (ids : List String) (us : List (String × UserRecord)), ids.Nodup → u ∈ ids →
      ∃ r, findUser (ids.foldl (syncStep bs f n) us) u = some r
        ∧ r.screenshots = (sortJs blobCmpDesc
            (bs.filter (fun b => startsWithStr ("screenshots/" ++ u ++ "/") b.pathname))).map
              blobToScreenshot
        ∧ r.ocrEntries = (sortJs blobCmpDesc
            (bs.filter (fun b => startsWithStr ("ocr/" ++ u ++ "/") b.pathname))).map
              (blobToOcrEntry f)
        ∧ r.totalScreenshots =
            (bs.filter (fun b => startsWithStr ("screenshots/" ++ u ++ "/") b.pathname)).length
        ∧ r.totalOcrEntries =
            (bs.filter (fun b => startsWithStr ("ocr/" ++ u ++ "/") b.pathname)).length := by
  intro ids
  induction ids with
  | nil => intro us _ hu; cases hu
  | cons v rest ih =>
    intro us hnd hu
    rw [List.nodup_cons] at hnd
    rcases List.mem_cons.mp hu with hu | hu
    · subst hu
      rw [List.foldl_cons, find_foldl_syncStep_not_mem bs f n rest _ hnd.1]
      exact find_syncStep_self ..
    · exact List.foldl_cons .. ▸ ih _ hnd.2 hu

theorem syncStep_noop {bs : List Blob} {f : String → Option FetchedPayload}
    {n : Nat} {us : List (String × UserRecord)} {u : String} {r : UserRecord}
    (hf : findUser us u = some r)
    (h1 : r.screenshots = (sortJs blobCmpDesc
        (bs.filter (fun b => startsWithStr ("screenshots/" ++ u ++ "/") b.pathname))).map
          blobToScreenshot)
    (h2 : r.ocrEntries = (sortJs blobCmpDesc
        (bs.filter (fun b => startsWithStr ("ocr/" ++ u ++ "/") b.pathname))).map
          (blobToOcrEntry f))
    (h3 : r.totalScreenshots =
        (bs.filter (fun b => startsWithStr ("screenshots/" ++ u ++ "/") b.pathname)).length)
    (h4 : r.totalOcrEntries =
        (bs.filter (fun b => startsWithStr ("ocr/" ++ u ++ "/") b.pathname)).length) :
    syncStep bs f n us u = us := by
  simp only [syncStep, hf]
  rw [← h1, ← h2, ← h3, ← h4]
  exact setUser_same hf

theorem dedupFirst_go_nodup (l : List String) :
    ∀ seen, (dedupFirst.go l seen).Nodup ∧ ∀ x ∈ dedupFirst.go l seen, x ∉ seen := by
  induction l with
  | nil => intro seen; simp [dedupFirst.go]
  | cons x xs ih =>
    intro seen
    by_cases hx : x ∈ seen
    · simpa [dedupFirst.go, hx] using ih seen
    · have hrec := ih (x :: seen)
      have hgo : dedupFirst.go (x :: xs) seen = x :: dedupFirst.go xs (x :: seen) := by
        simp [dedupFirst.go, hx]
      rw [hgo]
      refine ⟨List.nodup_cons.mpr ⟨fun hmem => ?_, hrec.1⟩, ?_⟩
      · exact hrec.2 x hmem (List.mem_cons_self ..)
      · intro y hy
        rcases List.mem_cons.mp hy with hy' | hy'
        · exact hy' ▸ hx
        · exact fun hmem => hrec.2 y hy' (List.mem_cons_of_mem _ hmem)

theorem dedupFirst_nodup (l : List String) : (dedupFirst l).Nodup :=
  (dedupFirst_go_nodup l []).1

theorem foldl_fixed {β : Type} {step : β → String → β} {b : β} :
    ∀ ids : List String, (∀ u ∈ ids, step b u = b) → ids.foldl step b = b := by
  intro ids
  induction ids with
  | nil => intro _; rfl
  | cons v rest ih =>
    intro h
    rw [List.foldl_cons, h v (by simp)]
    exact ih (fun u hu => h u (by simp [hu]))

theorem blobToOcrEntry_blobUrl (f : String → Option FetchedPayload) (b : Blob) :
    (blobToOcrEntry f b).blobUrl = b.url := by
  simp only [blobToOcrEntry]
  cases f b.url <;> rfl

theorem keep_head_ocr (e : OcrEntry) (l : List OcrEntry) :
    (if (e :: l).length > 100 then (e :: l).take 100 else (e :: l)).head? = some e := by
  split <;> rfl

theorem blobToOcrEntry_failed {f : String → Option FetchedPayload} {b : Blob}
    (h : f b.url = none) :
    (blobToOcrEntry f b).extractedText = none ∧ (blobToOcrEntry f b).wordCount = none
      ∧ (blobToOcrEntry f b).hasText = none ∧ (blobToOcrEntry f b).method = none
      ∧ (blobToOcrEntry f b).confidence = none := by
  simp [blobToOcrEntry, h]

end Septsat

namespace Septsat

/-! # Theorems for the claims -/

/-- C7: the text normalizer on the input
`"Question 3: Pick one. (A) Cat (B) Dog"` produces `questionNumber = 3`, the
ordered answer choices `(A, "Cat")`, `(B, "Dog")`, a parse confidence strictly
greater than 0.5 (in tenths: `> 5`), and `isQuestion = true`. -/
theorem c7_normalizer_example :
    (cleanOcrTextWithAI "Question 3: Pick one. (A) Cat (B) Dog").questionNumber = some 3
      ∧ (cleanOcrTextWithAI "Question 3: Pick one. (A) Cat (B) Dog").answerChoices.map
          (fun a => (a.letter, a.text)) = [('A', "Cat"), ('B', "Dog")]
      ∧ 5 < (cleanOcrTextWithAI "Question 3: Pick one. (A) Cat (B) Dog").confidence
      ∧ (cleanOcrTextWithAI "Question 3: Pick one. (A) Cat (B) Dog").isQuestion = true := by
  decide

/-- C8 counterexample: the input `"my question here"` contains the spec token
`question`, yet the source's indicator regex (which demands a digit after
`question`) does not fire, and the normalizer returns the untouched no-parse
record — so classification is not an `iff` over the ten plain tokens. -/
theorem c8_counterexample :
    specQuizIndicator "my question here" = true
      ∧ hasQuestionIndicators "my question here" = false
      ∧ cleanOcrTextWithAI "my question here" = noParseRecord "my question here" false := by
  decide

/-- C8 amended: the raw text is treated as quiz-like iff it contains
(case-insensitively) `question` followed by optional whitespace and a digit,
or `multiple` + optional whitespace + `choice`, or one of the nine tokens
`answer`, `choice`, `select`, `which`, `what`, `how`, `why`, `when`, `where`;
when it is not, the normalizer returns `isQuestion = false`, `cleanedText`
equal to the raw input unchanged, and zero confidence, with no further parsing
attempted — in particular `"hello world"` yields `isQuestion = false` and
`cleanedText` equal to the raw input. -/
theorem c8_amended_classification :
    (∀ raw, hasQuestionIndicators raw = amendedQuizIndicator raw)
      ∧ (∀ raw, hasQuestionIndicators raw = false →
          cleanOcrTextWithAI raw = noParseRecord raw false)
      ∧ hasQuestionIndicators "hello world" = false
      ∧ cleanOcrTextWithAI "hello world" = noParseRecord "hello world" false := by
  refine ⟨fun raw => ?_, fun raw h => ?_, by decide, by decide⟩
  · have hfil : (specQuizTokens.filter (· ≠ "question"))
        = ["answer", "choice", "select", "which", "what", "how", "why",
           "when", "where"] := by decide
    rw [Bool.eq_iff_iff]
    simp only [hasQuestionIndicators, amendedQuizIndicator, hfil, List.any_cons,
      List.any_nil, Bool.or_eq_true]
    tauto
  · simp [cleanOcrTextWithAI, h]

/-- C8 amended witness: the amended theorem applied at the concrete input
`"zebra zebra"`, which has no indicator. -/
theorem c8_amended_classification_witness :
    cleanOcrTextWithAI "zebra zebra" = noParseRecord "zebra zebra" false :=
  c8_amended_classification.2.1 "zebra zebra" (by decide)

/-- C1 counterexample: reconciling twice in a row over the same one-blob
listing does not reproduce the identical index — the second pass stamps
`lastUpdated` with its own time, so the timestamp fields differ. -/
theorem c1_counterexample :
    syncDataFromBlobs (syncDataFromBlobs emptyIndex (some [sBlobU]) fetchFail 0)
        (some [sBlobU]) fetchFail 1
      ≠ syncDataFromBlobs emptyIndex (some [sBlobU]) fetchFail 0 := by
  decide

/-- C1 amended: reconciliation is idempotent up to the `lastUpdated` stamp —
for every starting index, durable listing, hydration behaviour and pair of
pass times, running `syncDataFromBlobs` twice equals running it once except
that `lastUpdated` carries the second pass's time.  In particular the users,
their entries and order, and every counter coincide. -/
theorem c1_amended_sync_idempotent_mod_lastUpdated (idx : ClipboardIndex)
    (bs : List Blob) (f : String → Option FetchedPayload) (t1 t2 : Nat) :
    syncDataFromBlobs (syncDataFromBlobs idx (some bs) f t1) (some bs) f t2
      = { syncDataFromBlobs idx (some bs) f t1 with lastUpdated := some t2 } := by
  have husers : (userIdsOfBlobs bs).foldl (syncStep bs f t2)
      ((userIdsOfBlobs bs).foldl (syncStep bs f t1) idx.users)
      = (userIdsOfBlobs bs).foldl (syncStep bs f t1) idx.users := by
    apply foldl_fixed
    intro u hu
    obtain ⟨r, hfind, h1, h2, h3, h4⟩ :=
      find_syncPass_of_mem bs f t1 (userIdsOfBlobs bs) idx.users
        (dedupFirst_nodup _) hu
    exact syncStep_noop hfind h1 h2 h3 h4
  simp only [syncDataFromBlobs]
  rw [husers]

set_option maxRecDepth 40000 in
/-- C2 (code evaluated at the failing input): after 51 screenshot uploads for
the fresh user `u` with the source's limit of 50, the user holds exactly 50
entries and the oldest entry's blob (`s0`) was deleted — but the global
`totalScreenshots` counter reads 51, not 50: the upload path increments it
once per upload and never decrements it on eviction. -/
theorem c2_retention_counter_not_decremented :
    (findUser retentionRun.1.users "u").map (fun r => r.screenshots.length) = some 50
      ∧ retentionRun.1.totalScreenshots = 51
      ∧ retentionRun.2 = ["blob://screenshots/u/s0.png"]
      ∧ (findUser retentionRun.1.users "u").map
          (fun r => r.screenshots.any (fun s => s.id == "s0")) = some false := by
  decide

/-- C3 counterexample: `get-screenshot` invoked with no shared secret at all
does not return `AccessDenied` — it reconciles (mutating the index) and
redirects to the blob url.  The handler has no request/secret parameter
because the source never reads one. -/
theorem c3_counterexample_get_screenshot_unguarded :
    (handleGetScreenshot (some "s1") (some "u") emptyIndex (some [sBlobU]) fetchFail 99).1
        = { status := 302, success := true, redirect := some "https://b/s1" }
      ∧ (handleGetScreenshot (some "s1") (some "u") emptyIndex (some [sBlobU])
          fetchFail 99).1 ≠ accessDeniedResponse
      ∧ (handleGetScreenshot (some "s1") (some "u") emptyIndex (some [sBlobU])
          fetchFail 99).2.1 ≠ emptyIndex := by
  decide

/-- C3 amended: every listed read/search/delete/export operation except
`get-screenshot` — list-users, get-user-screenshots, get-user-ocr,
search-text, delete-screenshot, delete-ocr, clear-user-clipboard, get-stats,
export-questions — returns `AccessDenied` under a wrong or missing shared
secret and leaves the index completely unmutated (and issues no blob
deletes); `get-screenshot` performs no secret check at all. -/
theorem c3_amended_guarded_ops_deny (req : Request) (idx : ClipboardIndex)
    (listing : Option (List Blob)) (f : String → Option FetchedPayload) (now : Nat)
    (p1 p2 : Option String) (h : validateClipboardAccess req = false) :
    handleListUsers req idx listing f now = (accessDeniedResponse, idx, [])
      ∧ handleGetUserScreenshots req p1 idx listing f now = (accessDeniedResponse, idx, [])
      ∧ handleGetUserOcr req p1 idx listing f now = (accessDeniedResponse, idx, [])
      ∧ handleSearchText req p1 p2 idx listing f now = (accessDeniedResponse, idx, [])
      ∧ handleDeleteScreenshot req p1 p2 idx listing f now = (accessDeniedResponse, idx, [])
      ∧ handleDeleteOcr req p1 p2 idx listing f now = (accessDeniedResponse, idx, [])
      ∧ handleClearUserClipboard req p1 idx listing f now = (accessDeniedResponse, idx, [])
      ∧ handleGetStats req idx listing f now = (accessDeniedResponse, idx, [])
      ∧ handleExportQuestions req p1 idx listing f now = (accessDeniedResponse, idx, []) := by
  refine ⟨?_, ?_, ?_, ?_, ?_, ?_, ?_, ?_, ?_⟩ <;>
    simp [handleListUsers, handleGetUserScreenshots, handleGetUserOcr, handleSearchText,
      handleDeleteScreenshot, handleDeleteOcr, handleClearUserClipboard, handleGetStats,
      handleExportQuestions, h]

/-- C3 amended witness: the amended theorem applied to a keyless request on
the empty index. -/
theorem c3_amended_guarded_ops_deny_witness :
    handleListUsers noKeyRequest emptyIndex none fetchFail 0
        = (accessDeniedResponse, emptyIndex, [])
      ∧ handleDeleteScreenshot noKeyRequest (some "x") (some "u") emptyIndex none fetchFail 0
        = (accessDeniedResponse, emptyIndex, []) :=
  ⟨(c3_amended_guarded_ops_deny noKeyRequest emptyIndex none fetchFail 0 (some "x")
      (some "u") (by decide)).1,
   (c3_amended_guarded_ops_deny noKeyRequest emptyIndex none fetchFail 0 (some "x")
      (some "u") (by decide)).2.2.2.2.1⟩

/-- C4 counterexample: with one OCR blob whose hydration fetch fails,
reconciliation from the empty index still produces one entry for that blob
(with the text-preview fields absent) — the entry is not excluded from the
rebuilt index, contrary to the claim. -/
theorem c4_counterexample :
    (findUser (syncDataFromBlobs emptyIndex (some [oBlobU]) fetchFail 5).users "u").map
        (fun r => r.ocrEntries.map (fun e => (e.id, e.extractedText, e.wordCount, e.method)))
      = some [("o1", none, none, none)]
      ∧ (findUser (syncDataFromBlobs emptyIndex (some [oBlobU]) fetchFail 5).users "u").map
          (fun r => r.ocrEntries.length) = some 1 := by
  decide

/-- C4 amended: during reconciliation a failed fetch of one OCR blob's JSON
payload leaves that entry in the rebuilt index with its text-preview fields
absent, and does not abort the rest: for every user listed in the durable
listing, the rebuilt OCR sequence has exactly one entry per OCR blob of that
user regardless of which fetches fail, and each entry whose fetch failed
carries no `extractedText`, `wordCount`, `hasText`, `method` or `confidence`
field. -/
theorem c4_amended_failed_hydration_keeps_entry (idx : ClipboardIndex)
    (bs : List Blob) (f : String → Option FetchedPayload) (now : Nat) (u : String)
    (hu : u ∈ userIdsOfBlobs bs) :
    ∃ r, findUser (syncDataFromBlobs idx (some bs) f now).users u = some r
      ∧ r.ocrEntries.length
          = (bs.filter (fun b => startsWithStr ("ocr/" ++ u ++ "/") b.pathname)).length
      ∧ ∀ b ∈ bs.filter (fun b => startsWithStr ("ocr/" ++ u ++ "/") b.pathname),
          ∃ e ∈ r.ocrEntries, e.blobUrl = b.url ∧
            (f b.url = none → e.extractedText = none ∧ e.wordCount = none
              ∧ e.hasText = none ∧ e.method = none ∧ e.confidence = none) := by
  obtain ⟨r, hfind, _, h2, _, _⟩ :=
    find_syncPass_of_mem bs f now (userIdsOfBlobs bs) idx.users (dedupFirst_nodup _) hu
  refine ⟨r, by simpa [syncDataFromBlobs] using hfind, ?_, ?_⟩
  · rw [h2, List.length_map, length_sortJs]
  · intro b hb
    refine ⟨blobToOcrEntry f b, ?_, blobToOcrEntry_blobUrl f b,
      fun hfail => blobToOcrEntry_failed hfail⟩
    rw [h2]
    exact List.mem_map_of_mem _ (mem_sortJs.mpr hb)

/-- C4 amended witness: the amended theorem applied to the one-blob listing
whose only fetch fails. -/
theorem c4_amended_witness :
    (findUser (syncDataFromBlobs emptyIndex (some [oBlobU]) fetchFail 5).users "u").isSome
      = true := by
  obtain ⟨r, hr, -, -⟩ :=
    c4_amended_failed_hydration_keeps_entry emptyIndex [oBlobU] fetchFail 5 "u" (by decide)
  simp [hr]

/-- C5 counterexample: in the mixed export scenario (an unnumbered question
uploaded at 200, a numbered one at 100), the export operation returns the
unnumbered entry first — entries lacking a `questionNumber` are not sorted
after all numbered entries as the claim states. -/
theorem c5_counterexample :
    (exportQuestionsData (syncDataFromBlobs exportRun none fetchFail 300) none).map
        (fun q => (q.id, q.questionNumber)) = [("qb", none), ("qa", some 1)] := by
  decide

/-- C5 amended: `exportQuestions` returns only entries passing
`isQuestion && aiConfidence > 0.5`; when every returned entry has a truthy
`questionNumber` they are sorted by it ascending, and when none has they are
sorted by `uploadedAt` descending — but in a mixed population any comparison
involving an unnumbered entry falls back to `uploadedAt` descending, so
unnumbered entries are not placed after numbered ones (in the concrete mixed
scenario the order is by upload time, newest first). -/
theorem c5_amended_export :
    (∀ (idx : ClipboardIndex) (scope : Option String),
        (∀ x ∈ exportQuestionsData idx scope,
          ∃ uid rec, findUser idx.users uid = some rec
            ∧ ∃ e ∈ rec.ocrEntries, exportFilter e = true
                ∧ x = mkExportedQuestion uid rec.username e)
        ∧ ((∀ x ∈ exportQuestionsData idx scope, x.questionNumber.getD 0 ≠ 0) →
            (exportQuestionsData idx scope).Pairwise
              (fun a b => a.questionNumber.getD 0 ≤ b.questionNumber.getD 0))
        ∧ ((∀ x ∈ exportQuestionsData idx scope, x.questionNumber.getD 0 = 0) →
            (exportQuestionsData idx scope).Pairwise
              (fun a b => b.uploadedAt ≤ a.uploadedAt)))
      ∧ (exportQuestionsData (syncDataFromBlobs exportRun none fetchFail 300) none).map
          (fun q => q.uploadedAt) = [200, 100] := by
  refine ⟨fun idx scope => ⟨?_, ?_, ?_⟩, by decide⟩
  · intro x hx
    have hx' : x ∈ exportCollected idx scope := mem_sortJs.mp hx
    simp only [exportCollected] at hx'
    obtain ⟨l, hl, hxl⟩ := List.mem_flatten.mp hx'
    obtain ⟨uid, huid, heq⟩ := List.mem_map.mp hl
    subst heq
    cases hfind : findUser idx.users uid with
    | none => simp [hfind] at hxl
    | some rec =>
      simp only [hfind] at hxl
      obtain ⟨e, he, heq⟩ := List.mem_map.mp hxl
      exact ⟨uid, rec, hfind, e, (List.mem_filter.mp he).1,
        (List.mem_filter.mp he).2, heq.symm⟩
  · intro hall
    exact sortJs_exportCmp_all_numbered (fun x hx => hall x (mem_sortJs.mpr hx))
  · intro hall
    exact sortJs_exportCmp_none_numbered (fun x hx => hall x (mem_sortJs.mpr hx))

/-- C5 amended witness: the amended theorem's all-numbered branch applied to
the scenario holding the single numbered question. -/
theorem c5_amended_export_witness :
    (exportQuestionsData exportRunA none).Pairwise
      (fun a b => a.questionNumber.getD 0 ≤ b.questionNumber.getD 0) :=
  (c5_amended_export.1 exportRunA none).2.1 (by decide)

/-- C6 counterexample: for the term `a.c` (which contains a regex
metacharacter) over an index whose only entry's text is `a.c a0c`, the search
returns `matchCount = 2` — the term is compiled into a regular expression, so
`a0c` also counts — while the number of non-overlapping case-insensitive
occurrences of the term is 1. -/
theorem c6_counterexample :
    (searchTextResults dotIdx "a.c" none).map (fun r => r.matchCount) = [2]
      ∧ specOccCount (lowerS "a.c").data (lowerS "a.c a0c").data = 1 := by
  decide

/-- C6 amended: for every non-empty term containing no regex metacharacters,
the search returns exactly the OCR entries (of the scoped user, else all
users) whose `extractedText` contains the term case-insensitively, each hit's
`matchCount` equals the number of non-overlapping case-insensitive occurrences
of the term in that entry's text, and results are sorted by `matchCount`
descending; with two OCR entries across two users where only one contains
`osmosis` twice, searching `osmosis` returns exactly that one result with
`matchCount = 2`.  (For terms with metacharacters the term is interpreted as a
regular expression when counting.) -/
theorem c6_amended_search :
    (∀ (idx : ClipboardIndex) (q : String) (scope : Option String),
        q ≠ "" → (∀ c ∈ (lowerS q).data, c ∉ regexMetaChars) →
        (∀ r ∈ searchTextResults idx q scope,
            r.userId ∈ (if truthyS scope then [scope.getD ""]
                        else idx.users.map (fun p => p.1))
              ∧ ∃ rec, findUser idx.users r.userId = some rec
                  ∧ r.username = rec.username
                  ∧ r.entry ∈ rec.ocrEntries
                  ∧ specContains q r.entry = true
                  ∧ r.matchCount = specOccCount (lowerS q).data
                      (lowerS (r.entry.extractedText.getD "")).data)
          ∧ (∀ uid ∈ (if truthyS scope then [scope.getD ""]
                      else idx.users.map (fun p => p.1)),
              ∀ rec, findUser idx.users uid = some rec →
                ∀ e ∈ rec.ocrEntries, specContains q e = true →
                  mkSearchResult uid rec.username (lowerS q) e
                    ∈ searchTextResults idx q scope)
          ∧ (searchTextResults idx q scope).Pairwise
              (fun a b => b.matchCount ≤ a.matchCount))
      ∧ (searchTextResults osmIdx "osmosis" none).map (fun r => (r.userId, r.matchCount))
          = [("u1", 2)] := by
  refine ⟨fun idx q scope hq hmeta => ⟨?_, ?_, ?_⟩, by decide⟩
  · intro r hr
    have hdot : ∀ c ∈ (lowerS q).data, c ≠ '.' := fun c hc h =>
      hmeta c hc (by rw [h]; decide)
    have hr' : r ∈ searchCollected idx (lowerS q) scope := mem_sortJs.mp hr
    simp only [searchCollected] at hr'
    obtain ⟨l, hl, hrl⟩ := List.mem_flatten.mp hr'
    obtain ⟨uid, huid, heq⟩ := List.mem_map.mp hl
    subst heq
    cases hfind : findUser idx.users uid with
    | none => simp [hfind] at hrl
    | some rec =>
      simp only [hfind] at hrl
      obtain ⟨e, he, heq⟩ := List.mem_map.mp hrl
      obtain ⟨hemem, hematch⟩ := List.mem_filter.mp he
      subst heq
      refine ⟨huid, rec, hfind, rfl, hemem, ?_, ?_⟩
      · rw [← ocrEntryMatches_eq_specContains hq]
        exact hematch
      · exact regexCountG_eq_specOccCount hdot _
  · intro uid huid rec hfind e he hspec
    have hcol : mkSearchResult uid rec.username (lowerS q) e
        ∈ searchCollected idx (lowerS q) scope := by
      simp only [searchCollected]
      refine List.mem_flatten.mpr ⟨_, List.mem_map.mpr ⟨uid, huid, rfl⟩, ?_⟩
      simp only [hfind]
      exact List.mem_map_of_mem _ (List.mem_filter.mpr
        ⟨he, by rw [ocrEntryMatches_eq_specContains hq]; exact hspec⟩)
    exact mem_sortJs.mpr hcol
  · have hp := pairwise_sortJs (c := searchCmp) (searchCollected idx (lowerS q) scope)
      (fun x _ y _ => by simp only [searchCmp]; omega)
      (fun x _ y _ z _ h1 h2 => by simp only [searchCmp] at h1 h2 ⊢; omega)
    exact hp.imp (fun h => by simp only [searchCmp] at h; omega)

/-- C6 amended witness: the amended theorem's sortedness applied at the
concrete `osmosis` scenario. -/
theorem c6_amended_search_witness :
    (searchTextResults osmIdx "osmosis" none).Pairwise
      (fun a b => b.matchCount ≤ a.matchCount) :=
  (c6_amended_search.1 osmIdx "osmosis" none (by decide) (by decide)).2.2

/-- C9: upload atomicity on storage failure — for both upload operations, if
the request passes validation and the blob gateway's `put` of the computed
path fails, the handler surfaces the 500 upstream-error response and returns
the index completely unchanged, issuing no deletes. -/
theorem c9_upload_unchanged_on_put_failure (idx : ClipboardIndex)
    (body : ScreenshotUploadBody) (ob : OcrUploadBody) (m : OcrMetadata)
    (o : OcrFields) (newId : String) (now : Nat) (putF : String → Option String) :
    (truthyS body.userId = true → truthyS body.imageData = true →
      truthyS body.username = true →
      putF ("screenshots/" ++ body.userId.getD "" ++ "/" ++ newId ++ ".png") = none →
      handleScreenshotUpload idx body newId now putF = (serverErrorResponse, idx, []))
    ∧ (ob.metadata = some m → ob.ocr = some o →
      putF ("ocr/" ++ computeOcrUserId m ++ "/" ++ newId ++ ".json") = none →
      handleOcrUpload idx (some ob) newId now putF = (serverErrorResponse, idx, [])) := by
  constructor
  · intro h1 h2 h3 hput
    simp [handleScreenshotUpload, h1, h2, h3, hput]
  · intro hm ho hput
    simp [handleOcrUpload, hm, ho, hput]

/-- C9 witness: both upload handlers applied at concrete valid requests
against a gateway whose every `put` fails. -/
theorem c9_upload_unchanged_on_put_failure_witness :
    handleScreenshotUpload emptyIndex
        { userId := some "u", username := some "a", imageData := some "x" }
        "id1" 7 (fun _ => none) = (serverErrorResponse, emptyIndex, [])
      ∧ handleOcrUpload emptyIndex (some { metadata := some {}, ocr := some {} })
        "id2" 7 (fun _ => none) = (serverErrorResponse, emptyIndex, []) :=
  ⟨(c9_upload_unchanged_on_put_failure emptyIndex
      { userId := some "u", username := some "a", imageData := some "x" }
      {} {} {} "id1" 7 (fun _ => none)).1 (by decide) (by decide) (by decide) rfl,
   (c9_upload_unchanged_on_put_failure emptyIndex {}
      { metadata := some {}, ocr := some {} } {} {} "id2" 7 (fun _ => none)).2
     rfl rfl rfl⟩

/-- C10: the OCR upload never rejects for a missing user identity — the
owning id falls back from `metadata.user` (when truthy) to
`metadata.deviceId` (when truthy) to the literal `"unknown"`, and every
structurally valid payload whose blob write succeeds is accepted (status 200)
and indexed under that fallback id, with the new entry at the head of the
user's OCR sequence. -/
theorem c10_ocr_userid_fallback (idx : ClipboardIndex) (ob : OcrUploadBody)
    (m : OcrMetadata) (o : OcrFields) (newId : String) (now : Nat)
    (putF : String → Option String) (url : String) :
    (truthyS m.user = true → computeOcrUserId m = m.user.getD "")
      ∧ (truthyS m.user = false → truthyS m.deviceId = true →
          computeOcrUserId m = m.deviceId.getD "")
      ∧ (truthyS m.user = false → truthyS m.deviceId = false →
          computeOcrUserId m = "unknown")
      ∧ (ob.metadata = some m → ob.ocr = some o →
          putF ("ocr/" ++ computeOcrUserId m ++ "/" ++ newId ++ ".json") = some url →
          (handleOcrUpload idx (some ob) newId now putF).1.status = 200
            ∧ ∃ r, findUser (handleOcrUpload idx (some ob) newId now putF).2.1.users
                  (computeOcrUserId m) = some r
                ∧ ∃ e, r.ocrEntries.head? = some e ∧ e.id = newId) := by
  refine ⟨?_, ?_, ?_, ?_⟩
  · intro h
    cases hu : m.user with
    | none => rw [hu] at h; simp [truthyS] at h
    | some s =>
      rw [hu] at h
      simp [computeOcrUserId, jsOrS, hu, h]
  · intro h hd
    cases hd' : m.deviceId with
    | none => rw [hd'] at hd; simp [truthyS] at hd
    | some s =>
      rw [hd'] at hd
      simp [computeOcrUserId, jsOrS, hd', h, hd]
  · intro h hd
    simp [computeOcrUserId, jsOrS, h, hd]
  · intro hm ho hput
    simp only [handleOcrUpload, hm, ho, hput]
    exact ⟨by simp, _, find_setUser_self .., _, keep_head_ocr _ _, rfl⟩

/-- C10 witness: the fallback theorem applied to a payload with neither
`metadata.user` nor `metadata.deviceId`, indexed under `"unknown"`. -/
theorem c10_ocr_userid_fallback_witness :
    (handleOcrUpload emptyIndex (some { metadata := some {}, ocr := some {} })
        "x1" 7 putOk).1.status = 200 :=
  ((c10_ocr_userid_fallback emptyIndex { metadata := some {}, ocr := some {} }
      {} {} "x1" 7 putOk "blob://ocr/unknown/x1.json").2.2.2
    rfl rfl (by decide)).1

end Septsat
